import Mathlib

/-!
Verification of the dataset-synchronization spec for `node-server-sdk`
(streaming client, versioned in-memory feature store, requestor).

The repository ships the TypeScript declaration file `index.d.ts` and the
test suites `streaming-test.js` / `requestor-test.js`; the implementation
modules `feature_store.js`, `streaming.js`, `requestor.js` and
`versioned_data_kind.js` are referenced by those tests but are not present
under `src/`.  Each definition below is therefore modelled from the spec,
constrained by the declared interfaces and by the concrete behavior the
test suite pins down (URLs, headers, messages, status-code classification,
upsert calling convention, callback values).
-/

/-- An entity stored in the feature store: a versioned record identified by
a key, possibly a tombstone (`deleted = true`); `attrs` stands for the
opaque remaining payload of the JSON object. -/
structure Entity where
  key : String
  version : Nat
  deleted : Bool
  attrs : String
  deriving DecidableEq, Repr

/-- The two entity namespaces (data kinds) of `versioned_data_kind`. -/
inductive Namespace where
  | features
  | segments
  deriving DecidableEq, Repr

/-- Modelled from the spec: the DataKind registry of
`versioned_data_kind.js` (missing from src/) — per namespace, its name,
the path prefix used in streaming events, and the path segment used in
pull requests (the latter pinned by `requestor-test.js` URLs). -/
structure KindInfo where
  namespaceName : String
  streamApiPath : String
  requestPath : String
  deriving DecidableEq, Repr

def kindInfo : Namespace → KindInfo
  | .features => ⟨"features", "/flags/", "latest-flags"⟩
  | .segments => ⟨"segments", "/segments/", "latest-segments"⟩

/-- First-match association-list lookup (the JS objects backing the store
are keyed collections; lookup by key). -/
def lookupKey {α : Type} : List (String × α) → String → Option α
  | [], _ => none
  | (k, v) :: rest, key => if k = key then some v else lookupKey rest key

/-- Replace the binding of `e.key` with `e`, or append it if absent. -/
def setEntity : List (String × Entity) → Entity → List (String × Entity)
  | [], e => [(e.key, e)]
  | (k, v) :: rest, e => if k = e.key then (e.key, e) :: rest else (k, v) :: setEntity rest e

/-- A full dataset in the full-replace shape consumed by `init`:
one keyed collection per namespace. -/
structure Dataset where
  flags : List (String × Entity)
  segments : List (String × Entity)
  deriving DecidableEq, Repr

def Dataset.items (d : Dataset) : Namespace → List (String × Entity)
  | .features => d.flags
  | .segments => d.segments

/-- Modelled from the spec: the in-memory feature store of
`feature_store.js` (missing from src/) — a mapping from namespace to a
keyed collection of entities, plus the one-shot initialized flag. -/
structure Store where
  features : List (String × Entity)
  segments : List (String × Entity)
  inited : Bool
  deriving DecidableEq, Repr

def Store.items (s : Store) : Namespace → List (String × Entity)
  | .features => s.features
  | .segments => s.segments

def Store.setItems (s : Store) : Namespace → List (String × Entity) → Store
  | .features, l => { s with features := l }
  | .segments, l => { s with segments := l }

/-- The value a JavaScript callback receives: used to distinguish `null`
from `undefined` from an entity. -/
inductive JsVal where
  | undef
  | null
  | item (e : Entity)
  deriving DecidableEq, Repr

/-- Modelled from the spec: `get` of the in-memory store — the callback is
called with the retrieved entity, or `null` if the key is missing or the
stored entity is a tombstone (`index.d.ts` lines 486-502; the delete tests
assert the callback value is exactly `null`). -/
def Store.getCallbackArg (s : Store) (n : Namespace) (k : String) : JsVal :=
  match lookupKey (s.items n) k with
  | some item => if item.deleted then JsVal.null else JsVal.item item
  | none => JsVal.null

/-- `get` as an optional entity: `none` exactly when the callback value is
not an entity. -/
def Store.get (s : Store) (n : Namespace) (k : String) : Option Entity :=
  match s.getCallbackArg n k with
  | JsVal.item e => some e
  | _ => none

/-- Modelled from the spec: `all` — the keyed collection of a namespace
with tombstoned entities filtered out. -/
def Store.all (s : Store) (n : Namespace) : List (String × Entity) :=
  (s.items n).filter (fun p => !p.2.deleted)

/-- Modelled from the spec: `init` — atomically replaces all namespaces'
contents with the given dataset and marks the store initialized. -/
def Store.init (_s : Store) (d : Dataset) : Store :=
  { features := d.flags, segments := d.segments, inited := true }

/-- Modelled from the spec: `upsert(kind, entity)` — the in-memory store
receives the entity itself as second argument (the calling convention the
tests use) and targets the entry named by the entity's own `key`; the
write applies only if no entity currently exists for that key or the
existing entity's version is strictly less than the incoming one. -/
def shouldApplyWrite (items : List (String × Entity)) (e : Entity) : Bool :=
  match lookupKey items e.key with
  | some old => old.version < e.version
  | none => true

/-- The version-gated write itself (see `shouldApplyWrite` for the gate). -/
def Store.upsert (s : Store) (n : Namespace) (e : Entity) : Store :=
  if shouldApplyWrite (s.items n) e then s.setItems n (setEntity (s.items n) e) else s

/-- Modelled from the spec: `delete(kind, key, version)` — exactly an
upsert of a tombstone entity carrying the given version
(`index.d.ts` lines 532-554). -/
def Store.delete (s : Store) (n : Namespace) (k : String) (v : Nat) : Store :=
  s.upsert n { key := k, version := v, deleted := true, attrs := "" }

def Store.initialized (s : Store) : Bool :=
  s.inited

/-- The raw stored version of a key (tombstones included), 0 if the key
has never been written. -/
def storedVersion (s : Store) (n : Namespace) (k : String) : Nat :=
  ((lookupKey (s.items n) k).map Entity.version).getD 0

/-- A mutation of the store other than `init`: a version-gated upsert or a
version-gated delete. -/
inductive WriteOp where
  | up (n : Namespace) (e : Entity)
  | del (n : Namespace) (k : String) (v : Nat)
  deriving DecidableEq, Repr

def applyWrite (s : Store) : WriteOp → Store
  | .up n e => s.upsert n e
  | .del n k v => s.delete n k v

def applyWrites (s : Store) : List WriteOp → Store
  | [] => s
  | op :: rest => applyWrites (applyWrite s op) rest

/-- The empty, uninitialized store. -/
def Store.empty : Store :=
  { features := [], segments := [], inited := false }

/-! ## Requestor (pull requests) -/

/-- The outcome of one request/response exchange on the transport. -/
inductive HttpOutcome where
  | success (body : String)
  | httpStatus (status : Nat)
  | networkFailure (description : String)
  deriving DecidableEq, Repr

/-- An error reported by the requestor: either a non-success HTTP status,
or a transport failure; both identify the target resource. -/
inductive ReqError where
  | httpError (status : Nat) (target : String)
  | networkError (description : String) (target : String)
  deriving DecidableEq, Repr

namespace Requestor

/-- The pull URL for a single entity, as pinned by `requestor-test.js`
(`GET <baseUri>/sdk/latest-flags/<key>`, `GET <baseUri>/sdk/latest-segments/<key>`). -/
def objectUrl (baseUri : String) (n : Namespace) (key : String) : String :=
  baseUri ++ "/sdk/" ++ (kindInfo n).requestPath ++ "/" ++ key

/-- The pull URL for the full dataset (`GET <baseUri>/sdk/latest-all`). -/
def allUrl (baseUri : String) : String :=
  baseUri ++ "/sdk/latest-all"

/-- Modelled from the spec: the requestor's response handling
(`requestor.js` is missing from src/) — a success response yields the raw
serialized body; a non-success response yields an error identifying the
status code; a transport failure yields an error identifying the failure
and the target; the single outcome is reported directly, with no retry. -/
def handleResponse (target : String) : HttpOutcome → Except ReqError String
  | .success body => .ok body
  | .httpStatus s => .error (.httpError s target)
  | .networkFailure d => .error (.networkError d target)

/-- Modelled from the spec: `requestObject(kind, key)` — one stateless
exchange against the single-entity pull endpoint. -/
def requestObject (baseUri : String) (n : Namespace) (key : String)
    (outcome : HttpOutcome) : Except ReqError String :=
  handleResponse (objectUrl baseUri n key) outcome

/-- Modelled from the spec: `requestAllData()` — one stateless exchange
against the full-dataset pull endpoint. -/
def requestAllData (baseUri : String) (outcome : HttpOutcome) : Except ReqError String :=
  handleResponse (allUrl baseUri) outcome

end Requestor

/-! ## Stream client -/

/-- The error value passed to the `start` completion callback. -/
inductive StreamError where
  | malformedJson
  | httpFail (status : Nat)
  | fetchFail (e : ReqError)
  deriving DecidableEq, Repr

/-- The log line recorded for a malformed event payload, pinned by
`streaming-test.js` (`expectJsonError`). -/
def malformedMessage : String :=
  "Malformed JSON data in event stream"

def StreamError.message : StreamError → String
  | .malformedJson => malformedMessage
  | .httpFail s => "HTTP error " ++ toString s
  | .fetchFail _ => "Error fetching data"

/-- One invocation of the `start` completion callback: `none` is the
success invocation, `some e` the error invocation. -/
def CbResult : Type := Option StreamError

instance : DecidableEq CbResult := by
  unfold CbResult
  infer_instance

/-- Modelled from the spec: the observable state of the stream processor
(`streaming.js` is missing from src/): the driven store, the sequence of
`start`-completion invocations so far, the log lines emitted at error
severity, the count of low-severity log lines, whether the transport was
closed, and whether the processor reached the terminal failed state. -/
structure SPState where
  store : Store
  completions : List CbResult
  errorLog : List String
  warnLogCount : Nat
  closedConn : Bool
  failed : Bool
  deriving DecidableEq

/-- The initial stream-processor state over a given store. -/
def SPState.start (s : Store) : SPState :=
  { store := s, completions := [], errorLog := [], warnLogCount := 0,
    closedConn := false, failed := false }

/-- Invoke the `start` completion at most once for the lifetime of the
processor (the one-shot guard of the spec). -/
def signalOnce (st : SPState) (r : CbResult) : SPState :=
  if st.completions = [] then { st with completions := [r] } else st

/-- Modelled from the spec: classification of a handshake status code —
the codes indicating permanent authorization failure are unrecoverable
(`streaming-test.js` pins 401 and 403 as unrecoverable and 400, 408, 429,
500, 503 as recoverable). -/
def unrecoverableStatus (s : Nat) : Bool :=
  s == 401 || s == 403

/-- Modelled from the spec: the stream processor's connection-error
handler — an error without a status code, or with a recoverable status
code, is logged at low severity and retried; an unrecoverable status code
is logged once at error severity, invokes the completion with the error if
not already invoked, closes the transport and moves to the failed state. -/
def onStreamError (st : SPState) (status : Option Nat) : SPState :=
  match status with
  | some s =>
    if unrecoverableStatus s then
      let st := { st with
        errorLog := st.errorLog ++ [StreamError.message (.httpFail s)],
        closedConn := true,
        failed := true }
      signalOnce st (some (.httpFail s))
    else
      { st with warnLogCount := st.warnLogCount + 1 }
  | none => { st with warnLogCount := st.warnLogCount + 1 }

/-- Strip a prefix from a character sequence, returning the remainder
when the prefix matches. -/
def dropPrefixChars : List Char → List Char → Option (List Char)
  | [], rest => some rest
  | _ :: _, [] => none
  | p :: ps, c :: cs => if p = c then dropPrefixChars ps cs else none

/-- Extract the entity key from a streaming event path when the path
starts with the namespace's stream path prefix. -/
def keyFromPath (n : Namespace) (path : String) : Option String :=
  match dropPrefixChars (kindInfo n).streamApiPath.data path.data with
  | some rest => some (String.mk rest)
  | none => none

/-- Route a streaming event path to a namespace and key via the DataKind
registry (`/flags/<key>` and `/segments/<key>`). -/
def parsePath (path : String) : Option (Namespace × String) :=
  match keyFromPath .features path with
  | some k => some (.features, k)
  | none =>
    match keyFromPath .segments path with
    | some k => some (.segments, k)
    | none => none

/-- The pull interface the stream processor uses to resolve indirect
events; each field holds the (already completed) result of the
corresponding fetch. -/
structure StreamRequestor where
  requestAllData : Except ReqError Dataset
  requestObject : Namespace → String → Except ReqError Entity

/-- A parsed streaming event; a payload of `none` stands for a payload
that failed to parse (malformed JSON). -/
inductive StreamEvent where
  | put (data : Option Dataset)
  | patch (data : Option (String × Entity))
  | deleteEvent (data : Option (String × Nat))
  | indirectPut
  | indirectPatch (path : String)

/-- Record a malformed-payload processing error: log one line at error
severity and invoke the completion with the error only if it has not yet
been invoked; the connection and the store are untouched. -/
def reportMalformed (st : SPState) : SPState :=
  let st := { st with errorLog := st.errorLog ++ [malformedMessage] }
  signalOnce st (some .malformedJson)

/-- Apply a full dataset: `init` the store and signal successful
initialization if the completion has not yet been invoked. -/
def applyPut (st : SPState) (d : Dataset) : SPState :=
  signalOnce { st with store := st.store.init d } none

/-- Modelled from the spec: the stream processor's event dispatch
(`streaming.js` is missing from src/) — `put` initializes the store with
the full dataset; `patch` applies a version-gated upsert to the namespace
and key parsed from the path; `delete` applies a version-gated tombstone;
`indirect/put` resolves the full dataset through the requestor and applies
it as a `put`; `indirect/patch` parses namespace and key from the path
payload, fetches that single entity through the requestor and applies it
as a version-gated upsert; any payload that fails to parse is reported as
a malformed-data error without touching the store or the connection; a
fetch failure is surfaced as a processing error without closing the
connection. -/
def processEvent (r : StreamRequestor) (st : SPState) : StreamEvent → SPState
  | .put (some d) => applyPut st d
  | .put none => reportMalformed st
  | .patch (some (path, e)) =>
    match parsePath path with
    | some (n, _) => { st with store := st.store.upsert n e }
    | none => st
  | .patch none => reportMalformed st
  | .deleteEvent (some (path, v)) =>
    match parsePath path with
    | some (n, k) => { st with store := st.store.delete n k v }
    | none => st
  | .deleteEvent none => reportMalformed st
  | .indirectPut =>
    match r.requestAllData with
    | .ok d => applyPut st d
    | .error e => signalOnce { st with errorLog := st.errorLog ++ [StreamError.message (.fetchFail e)] } (some (.fetchFail e))
  | .indirectPatch path =>
    match parsePath path with
    | some (n, k) =>
      match r.requestObject n k with
      | .ok e => { st with store := st.store.upsert n e }
      | .error e => signalOnce { st with errorLog := st.errorLog ++ [StreamError.message (.fetchFail e)] } (some (.fetchFail e))
    | none => st

def processEvents (r : StreamRequestor) (st : SPState) : List StreamEvent → SPState
  | [] => st
  | ev :: rest => processEvents r (processEvent r st ev) rest

/-- Whether an event carries a payload that failed to parse. -/
def StreamEvent.malformed : StreamEvent → Bool
  | .put none => true
  | .patch none => true
  | .deleteEvent none => true
  | _ => false

/-- The request the stream client opens on `start`: the URL and handshake
headers, as pinned by `streaming-test.js` (`uses expected URL`,
`sets expected headers`). -/
structure StreamRequest where
  url : String
  headers : List (String × String)
  deriving DecidableEq, Repr

/-- Modelled from the spec: connection setup — the persistent connection
goes to `<streamUri>/all` and the handshake carries the SDK key in the
`Authorization` header and the client identifier in the `User-Agent`
header. -/
def streamRequest (sdkKey streamUri userAgent : String) : StreamRequest :=
  { url := streamUri ++ "/all",
    headers := [("Authorization", sdkKey), ("User-Agent", userAgent)] }

/-! ## Association-list and store lemmas -/

theorem lookupKey_setEntity_self (l : List (String × Entity)) (e : Entity) :
    lookupKey (setEntity l e) e.key = some e := by
  induction l with
  | nil => simp [setEntity, lookupKey]
  | cons p rest ih =>
    obtain ⟨k, v⟩ := p
    by_cases h : k = e.key
    · simp [setEntity, h, lookupKey]
    · simp [setEntity, h, lookupKey, ih]

theorem lookupKey_setEntity_ne (l : List (String × Entity)) (e : Entity) (k : String)
    (h : k ≠ e.key) : lookupKey (setEntity l e) k = lookupKey l k := by
  induction l with
  | nil => simp [setEntity, lookupKey, Ne.symm h]
  | cons p rest ih =>
    obtain ⟨k', v⟩ := p
    by_cases h' : k' = e.key
    · subst h'
      simp [setEntity, lookupKey, Ne.symm h]
    · simp only [setEntity, if_neg h', lookupKey]
      by_cases h'' : k' = k
      · simp [h'']
      · simp [h'', ih]

theorem items_setItems_self (s : Store) (n : Namespace) (l : List (String × Entity)) :
    (s.setItems n l).items n = l := by
  cases n <;> simp [Store.items, Store.setItems]

theorem items_setItems_ne (s : Store) (n n' : Namespace) (l : List (String × Entity))
    (h : n' ≠ n) : (s.setItems n l).items n' = s.items n' := by
  cases n <;> cases n' <;> simp_all [Store.items, Store.setItems]

theorem upsert_items_of_ne (s : Store) (n n' : Namespace) (e : Entity) (h : n' ≠ n) :
    (s.upsert n e).items n' = s.items n' := by
  unfold Store.upsert
  split
  · exact items_setItems_ne s n n' _ h
  · rfl

theorem upsert_lookup_other_key (s : Store) (n : Namespace) (e : Entity) (k : String)
    (h : k ≠ e.key) :
    lookupKey ((s.upsert n e).items n) k = lookupKey (s.items n) k := by
  unfold Store.upsert
  split
  · rw [items_setItems_self, lookupKey_setEntity_ne _ _ _ h]
  · rfl

theorem upsert_lookup_self (s : Store) (n : Namespace) (e : Entity) :
    lookupKey ((s.upsert n e).items n) e.key =
      if shouldApplyWrite (s.items n) e then some e else lookupKey (s.items n) e.key := by
  unfold Store.upsert
  split
  · rw [items_setItems_self, lookupKey_setEntity_self]
  · rfl

theorem upsert_noop_of_version_le (s : Store) (n : Namespace) (e : Entity)
    (old : Entity) (hold : lookupKey (s.items n) e.key = some old)
    (hle : e.version ≤ old.version) : s.upsert n e = s := by
  unfold Store.upsert
  rw [if_neg]
  simp only [shouldApplyWrite, hold, decide_eq_true_eq]
  omega

theorem storedVersion_upsert_le (s : Store) (n n' : Namespace) (e : Entity) (k : String) :
    storedVersion s n' k ≤ storedVersion (s.upsert n e) n' k := by
  by_cases hn : n' = n
  · subst hn
    by_cases hk : k = e.key
    · subst hk
      unfold storedVersion
      rw [upsert_lookup_self]
      by_cases hgate : shouldApplyWrite (s.items n') e = true
      · rw [if_pos hgate]
        unfold shouldApplyWrite at hgate
        cases hl : lookupKey (s.items n') e.key with
        | none => simp [hl]
        | some old =>
          rw [hl] at hgate
          simp only [decide_eq_true_eq] at hgate
          simp only [hl, Option.map_some', Option.getD_some]
          omega
      · rw [if_neg hgate]
    · unfold storedVersion
      rw [upsert_lookup_other_key s n' e k hk]
  · unfold storedVersion
    rw [upsert_items_of_ne s n n' e hn]

theorem storedVersion_applyWrite_le (s : Store) (op : WriteOp) (n : Namespace) (k : String) :
    storedVersion s n k ≤ storedVersion (applyWrite s op) n k := by
  cases op with
  | up n' e => exact storedVersion_upsert_le s n' n e k
  | del n' k' v => exact storedVersion_upsert_le s n' n _ k

theorem storedVersion_applyWrites_le (ops : List WriteOp) (s : Store) (n : Namespace)
    (k : String) : storedVersion s n k ≤ storedVersion (applyWrites s ops) n k := by
  induction ops generalizing s with
  | nil => exact Nat.le_refl _
  | cons op rest ih =>
    calc storedVersion s n k ≤ storedVersion (applyWrite s op) n k :=
          storedVersion_applyWrite_le s op n k
      _ ≤ storedVersion (applyWrites (applyWrite s op) rest) n k := ih _

theorem lookupKey_filter_of_none {α : Type} (l : List (String × α)) (p : String × α → Bool)
    (k : String) (h : lookupKey l k = none) : lookupKey (l.filter p) k = none := by
  induction l with
  | nil => simp [lookupKey]
  | cons hd tl ih =>
    obtain ⟨k', v⟩ := hd
    by_cases hk : k' = k
    · simp [lookupKey, hk] at h
    · simp only [lookupKey, if_neg hk] at h
      cases hp : p (k', v) <;> simp only [List.filter, hp]
      · exact ih h
      · simp only [lookupKey, if_neg hk]
        exact ih h

theorem lookupKey_eq_none_of_not_mem {α : Type} (l : List (String × α)) (k : String)
    (h : k ∉ l.map Prod.fst) : lookupKey l k = none := by
  induction l with
  | nil => simp [lookupKey]
  | cons hd tl ih =>
    obtain ⟨k', v⟩ := hd
    simp only [List.map, List.mem_cons] at h
    push_neg at h
    simp only [lookupKey, if_neg (Ne.symm h.1)]
    exact ih h.2

theorem lookupKey_all_none (l : List (String × Entity)) (k : String) (t : Entity)
    (hnd : (l.map Prod.fst).Nodup) (ht : lookupKey l k = some t) (hd : t.deleted = true) :
    lookupKey (l.filter (fun p => !p.2.deleted)) k = none := by
  induction l with
  | nil => simp [lookupKey] at ht
  | cons hdp tl ih =>
    obtain ⟨k', v⟩ := hdp
    simp only [List.map, List.nodup_cons] at hnd
    by_cases hk : k' = k
    · subst hk
      have hv : v = t := by simpa [lookupKey] using ht
      have hd' : v.deleted = true := by rw [hv]; exact hd
      have hp : (fun p : String × Entity => !p.2.deleted) (k', v) = false := by simp [hd']
      simp only [List.filter, hp]
      exact lookupKey_filter_of_none tl _ k' (lookupKey_eq_none_of_not_mem tl k' hnd.1)
    · simp only [lookupKey, if_neg hk] at ht
      cases hp : (fun p : String × Entity => !p.2.deleted) (k', v) <;>
        simp only [List.filter, hp]
      · exact ih hnd.2 ht
      · simp only [lookupKey, if_neg hk]
        exact ih hnd.2 ht

theorem getCallbackArg_null_of_missing_or_deleted (s : Store) (n : Namespace) (k : String)
    (h : lookupKey (s.items n) k = none ∨
      ∃ e, lookupKey (s.items n) k = some e ∧ e.deleted = true) :
    s.getCallbackArg n k = JsVal.null := by
  unfold Store.getCallbackArg
  rcases h with h | ⟨e, he, hd⟩
  · rw [h]
  · rw [he]
    show (if e.deleted = true then JsVal.null else JsVal.item e) = JsVal.null
    rw [if_pos hd]

theorem get_eq_none_of_null (s : Store) (n : Namespace) (k : String)
    (h : s.getCallbackArg n k = JsVal.null) : s.get n k = none := by
  unfold Store.get
  rw [h]

/-! ## Concrete fixtures used by the witness statements -/

/-- A live (non-tombstone) entity with a given key and version. -/
def entV (k : String) (v : Nat) : Entity :=
  { key := k, version := v, deleted := false, attrs := "" }

/-- A store holding `flagkey` at version 2 in the features namespace. -/
def storeFlag2 : Store :=
  { features := [("flagkey", entV "flagkey" 2)], segments := [], inited := true }

/-- Scenario C's store: `flagkey` written at version 1, then deleted at
version 2, leaving a version-2 tombstone. -/
def storeScenC : Store :=
  (Store.empty.upsert .features (entV "flagkey" 1)).delete .features "flagkey" 2

/-- Scenario A's full-replace dataset: `flags={flagkey: v1}`,
`segments={segkey: v2}`. -/
def scenarioA : Dataset :=
  { flags := [("flagkey", entV "flagkey" 1)],
    segments := [("segkey", entV "segkey" 2)] }

/-! ## Claim theorems -/

/-- C1: `upsert(namespace, key, entity)` changes the store only when no
entity exists for the key or the stored version is strictly below the
incoming one — a call at a version less than or equal to the stored one is
a silent no-op — and over any sequence of `upsert`/`delete` calls the
stored version of every key never decreases. -/
theorem upsert_version_gate_and_monotone (s : Store) (n : Namespace) (e : Entity)
    (old : Entity) (hold : lookupKey (s.items n) e.key = some old)
    (hle : e.version ≤ old.version) (ops : List WriteOp) (n' : Namespace) (k : String) :
    s.upsert n e = s ∧
      storedVersion s n' k ≤ storedVersion (applyWrites s ops) n' k :=
  ⟨upsert_noop_of_version_le s n e old hold hle,
   storedVersion_applyWrites_le ops s n' k⟩

theorem upsert_version_gate_and_monotone_witness :
    Store.upsert storeFlag2 .features (entV "flagkey" 2) = storeFlag2 ∧
      storedVersion storeFlag2 .features "flagkey" ≤
        storedVersion
          (applyWrites storeFlag2
            [WriteOp.up .features (entV "flagkey" 5), WriteOp.del .features "flagkey" 3])
          .features "flagkey" :=
  upsert_version_gate_and_monotone storeFlag2 .features (entV "flagkey" 2)
    (entV "flagkey" 2) (by decide) (by decide)
    [WriteOp.up .features (entV "flagkey" 5), WriteOp.del .features "flagkey" 3]
    .features "flagkey"

/-- C3: after a full replace `init(D)` the store reports initialized, each
namespace's contents are exactly `D`'s collection for that namespace (so
`all` is `D`'s collection with tombstones filtered out), the result is
independent of the prior contents, and the Scenario A dataset yields
version 1 for `features/flagkey` and version 2 for `segments/segkey`. -/
theorem init_full_replace (s s' : Store) (d : Dataset) (n : Namespace) :
    (s.init d).initialized = true ∧
      (s.init d).items n = d.items n ∧
      (s.init d).all n = (d.items n).filter (fun p => !p.2.deleted) ∧
      s.init d = s'.init d ∧
      (Store.empty.init scenarioA).initialized = true ∧
      ((Store.empty.init scenarioA).get .features "flagkey").map Entity.version = some 1 ∧
      ((Store.empty.init scenarioA).get .segments "segkey").map Entity.version = some 2 := by
  refine ⟨rfl, ?_, ?_, rfl, by decide, by decide, by decide⟩
  · cases n <;> rfl
  · cases n <;> rfl

/-- C4: a tombstoned key reads as not-found through `get`, is excluded
from `all`, and its version is still remembered: a subsequent upsert for
the key at a version less than or equal to the tombstone's version is a
no-op. -/
theorem tombstone_visibility (s : Store) (n : Namespace) (k : String) (t : Entity)
    (ht : lookupKey (s.items n) k = some t) (hd : t.deleted = true)
    (hnd : ((s.items n).map Prod.fst).Nodup) (e : Entity) (hk : e.key = k)
    (hv : e.version ≤ t.version) :
    s.get n k = none ∧ lookupKey (s.all n) k = none ∧ s.upsert n e = s := by
  refine ⟨?_, ?_, ?_⟩
  · exact get_eq_none_of_null s n k
      (getCallbackArg_null_of_missing_or_deleted s n k (Or.inr ⟨t, ht, hd⟩))
  · exact lookupKey_all_none (s.items n) k t hnd ht hd
  · refine upsert_noop_of_version_le s n e t ?_ hv
    rw [hk]
    exact ht

theorem tombstone_visibility_witness :
    storeScenC.get .features "flagkey" = none ∧
      lookupKey (storeScenC.all .features) "flagkey" = none ∧
      storeScenC.upsert .features (entV "flagkey" 1) = storeScenC :=
  tombstone_visibility storeScenC .features "flagkey"
    { key := "flagkey", version := 2, deleted := true, attrs := "" }
    (by decide) (by decide) (by decide) (entV "flagkey" 1) (by decide) (by decide)

/-- C9: the in-memory store's `upsert` receives the entity itself as its
second argument and identifies the target entry by the entity's own `key`
property: the binding at `e.key` is the one the write targets, while every
other key in the namespace and every other namespace are untouched. -/
theorem upsert_keyed_by_entity_key (s : Store) (n n' : Namespace) (e : Entity) (k : String)
    (hk : k ≠ e.key) (hn : n' ≠ n) :
    lookupKey ((s.upsert n e).items n) e.key =
        (if shouldApplyWrite (s.items n) e then some e
          else lookupKey (s.items n) e.key) ∧
      lookupKey ((s.upsert n e).items n) k = lookupKey (s.items n) k ∧
      (s.upsert n e).items n' = s.items n' :=
  ⟨upsert_lookup_self s n e, upsert_lookup_other_key s n e k hk,
   upsert_items_of_ne s n n' e hn⟩

theorem upsert_keyed_by_entity_key_witness :
    lookupKey ((storeFlag2.upsert .features (entV "flagkey" 5)).items .features)
        (entV "flagkey" 5).key =
        (if shouldApplyWrite (storeFlag2.items .features) (entV "flagkey" 5)
          then some (entV "flagkey" 5)
          else lookupKey (storeFlag2.items .features) (entV "flagkey" 5).key) ∧
      lookupKey ((storeFlag2.upsert .features (entV "flagkey" 5)).items .features) "other" =
        lookupKey (storeFlag2.items .features) "other" ∧
      (storeFlag2.upsert .features (entV "flagkey" 5)).items .segments =
        storeFlag2.items .segments :=
  upsert_keyed_by_entity_key storeFlag2 .features .segments (entV "flagkey" 5) "other"
    (by decide) (by decide)

/-- C10: for every namespace and key whose entity is missing or
tombstoned, the `get` callback is handed exactly the value `null` — not
`undefined` and not an entity. -/
theorem get_delivers_null_when_absent (s : Store) (n : Namespace) (k : String)
    (h : lookupKey (s.items n) k = none ∨
      ∃ e, lookupKey (s.items n) k = some e ∧ e.deleted = true) :
    s.getCallbackArg n k = JsVal.null ∧ JsVal.null ≠ JsVal.undef :=
  ⟨getCallbackArg_null_of_missing_or_deleted s n k h, by simp⟩

theorem get_delivers_null_when_absent_witness :
    storeScenC.getCallbackArg .features "flagkey" = JsVal.null ∧
      JsVal.null ≠ JsVal.undef :=
  get_delivers_null_when_absent storeScenC .features "flagkey"
    (Or.inr ⟨{ key := "flagkey", version := 2, deleted := true, attrs := "" },
      by decide, rfl⟩)

/-- C7: `requestObject` yields the raw serialized body on success, an
error carrying the status code of a non-success response, and an error
carrying the failure description and the target on a transport failure;
`requestAllData` behaves the same way for the full dataset, each call
reporting its single outcome directly to its caller. -/
theorem requestor_outcome_mapping (baseUri body desc : String) (n : Namespace)
    (key : String) (status : Nat) :
    Requestor.requestObject baseUri n key (.success body) = .ok body ∧
      Requestor.requestObject baseUri n key (.httpStatus status) =
        .error (.httpError status (Requestor.objectUrl baseUri n key)) ∧
      Requestor.requestObject baseUri n key (.networkFailure desc) =
        .error (.networkError desc (Requestor.objectUrl baseUri n key)) ∧
      Requestor.requestAllData baseUri (.success body) = .ok body ∧
      Requestor.requestAllData baseUri (.httpStatus status) =
        .error (.httpError status (Requestor.allUrl baseUri)) ∧
      Requestor.requestAllData baseUri (.networkFailure desc) =
        .error (.networkError desc (Requestor.allUrl baseUri)) :=
  ⟨rfl, rfl, rfl, rfl, rfl, rfl⟩

/-- C8: `start` opens the persistent connection to the streaming base URI
plus the path `/all`, and the handshake carries the SDK key in the
authorization header and the client identifier in the `User-Agent`
header. -/
theorem stream_request_url_and_headers (sdkKey streamUri userAgent : String) :
    (streamRequest sdkKey streamUri userAgent).url = streamUri ++ "/all" ∧
      lookupKey (streamRequest sdkKey streamUri userAgent).headers "Authorization" =
        some sdkKey ∧
      lookupKey (streamRequest sdkKey streamUri userAgent).headers "User-Agent" =
        some userAgent := by
  refine ⟨rfl, ?_, ?_⟩ <;> simp [streamRequest, lookupKey]

/-- C2: a connection failure with an unrecoverable status code logs one
line at error severity, invokes the `start` completion with the error
exactly once (a repeat of the failure invokes it no further time), and
closes the transport; a failure with no status code or any other status
code leaves the transport open, the error log untouched and the
completion uninvoked. -/
theorem stream_error_classification (st : SPState) (s : Nat)
    (hs : unrecoverableStatus s = true) (r : Option Nat)
    (hr : r = none ∨ ∃ c, r = some c ∧ unrecoverableStatus c = false) :
    ((onStreamError st r).closedConn = st.closedConn ∧
      (onStreamError st r).errorLog = st.errorLog ∧
      (onStreamError st r).completions = st.completions) ∧
    ((onStreamError st (some s)).closedConn = true ∧
      (onStreamError st (some s)).errorLog =
        st.errorLog ++ [StreamError.message (.httpFail s)] ∧
      (onStreamError st (some s)).completions =
        (if st.completions = [] then [some (StreamError.httpFail s)]
          else st.completions) ∧
      (onStreamError (onStreamError st (some s)) (some s)).completions =
        (onStreamError st (some s)).completions) := by
  constructor
  · rcases hr with rfl | ⟨c, rfl, hc⟩
    · exact ⟨rfl, rfl, rfl⟩
    · simp [onStreamError, hc]
  · refine ⟨?_, ?_, ?_, ?_⟩
    · simp only [onStreamError, hs, if_pos, signalOnce]
      split <;> rfl
    · simp only [onStreamError, hs, if_pos, signalOnce]
      split <;> rfl
    · simp only [onStreamError, hs, if_pos, signalOnce]
      split <;> rfl
    · simp only [onStreamError, hs, if_pos, signalOnce]
      by_cases h0 : st.completions = []
      · simp [h0]
      · simp [h0]

theorem stream_error_classification_witness :
    ((onStreamError (SPState.start Store.empty) (some 500)).closedConn =
        (SPState.start Store.empty).closedConn ∧
      (onStreamError (SPState.start Store.empty) (some 500)).errorLog =
        (SPState.start Store.empty).errorLog ∧
      (onStreamError (SPState.start Store.empty) (some 500)).completions =
        (SPState.start Store.empty).completions) ∧
    ((onStreamError (SPState.start Store.empty) (some 401)).closedConn = true ∧
      (onStreamError (SPState.start Store.empty) (some 401)).errorLog =
        (SPState.start Store.empty).errorLog ++
          [StreamError.message (.httpFail 401)] ∧
      (onStreamError (SPState.start Store.empty) (some 401)).completions =
        (if (SPState.start Store.empty).completions = []
          then [some (StreamError.httpFail 401)]
          else (SPState.start Store.empty).completions) ∧
      (onStreamError (onStreamError (SPState.start Store.empty) (some 401))
          (some 401)).completions =
        (onStreamError (SPState.start Store.empty) (some 401)).completions) :=
  stream_error_classification (SPState.start Store.empty) 401 (by decide)
    (some 500) (Or.inr ⟨500, rfl, by decide⟩)

/-- The four observable effects of reporting a malformed payload: the
store is untouched, one line is logged at error severity, the connection
flag is untouched, and the completion is invoked with the error exactly
when it has not fired yet. -/
theorem reportMalformed_spec (st : SPState) :
    (reportMalformed st).store = st.store ∧
      (reportMalformed st).errorLog = st.errorLog ++ [malformedMessage] ∧
      (reportMalformed st).closedConn = st.closedConn ∧
      (reportMalformed st).completions =
        (if st.completions = [] then [some StreamError.malformedJson]
          else st.completions) := by
  unfold reportMalformed signalOnce
  by_cases h0 : st.completions = [] <;> simp [h0]

/-- A requestor stub whose fetches always fail; events that carry their
own payload never consult it. -/
def nullRequestor : StreamRequestor :=
  { requestAllData := .error (.networkError "unreachable" "none"),
    requestObject := fun _ _ => .error (.networkError "unreachable" "none") }

/-- C5 counterexample: at the concrete malformed `put` event the recorded
and logged error message is "Malformed JSON data in event stream" — the
message the test suite pins — and not "malformed data in event stream" as
the claim words it. -/
theorem malformed_message_cex :
    (processEvent nullRequestor (SPState.start Store.empty) (.put none)).errorLog =
        ["Malformed JSON data in event stream"] ∧
      (processEvent nullRequestor (SPState.start Store.empty) (.put none)).errorLog ≠
        ["malformed data in event stream"] := by
  constructor
  · rfl
  · decide

/-- C5 (amended: the recorded message is "Malformed JSON data in event
stream"): a stream event whose payload fails to parse records and logs
that descriptive error, invokes the `onReady` completion with the error
exactly when no completion has fired yet (the very first failure before
initialization), leaves the connection flag untouched, and updates no
store entity. -/
theorem malformed_event_isolation (r : StreamRequestor) (st : SPState)
    (ev : StreamEvent) (hm : ev.malformed = true) :
    (processEvent r st ev).store = st.store ∧
      (processEvent r st ev).errorLog =
        st.errorLog ++ ["Malformed JSON data in event stream"] ∧
      (processEvent r st ev).closedConn = st.closedConn ∧
      (processEvent r st ev).completions =
        (if st.completions = [] then [some StreamError.malformedJson]
          else st.completions) := by
  cases ev with
  | put d =>
    cases d with
    | none => exact reportMalformed_spec st
    | some d => simp [StreamEvent.malformed] at hm
  | patch d =>
    cases d with
    | none => exact reportMalformed_spec st
    | some d => simp [StreamEvent.malformed] at hm
  | deleteEvent d =>
    cases d with
    | none => exact reportMalformed_spec st
    | some d => simp [StreamEvent.malformed] at hm
  | indirectPut => simp [StreamEvent.malformed] at hm
  | indirectPatch p => simp [StreamEvent.malformed] at hm

theorem malformed_event_isolation_witness :
    (processEvent nullRequestor (SPState.start Store.empty) (.patch none)).store =
        (SPState.start Store.empty).store ∧
      (processEvent nullRequestor (SPState.start Store.empty) (.patch none)).errorLog =
        (SPState.start Store.empty).errorLog ++
          ["Malformed JSON data in event stream"] ∧
      (processEvent nullRequestor (SPState.start Store.empty) (.patch none)).closedConn =
        (SPState.start Store.empty).closedConn ∧
      (processEvent nullRequestor (SPState.start Store.empty) (.patch none)).completions =
        (if (SPState.start Store.empty).completions = []
          then [some StreamError.malformedJson]
          else (SPState.start Store.empty).completions) :=
  malformed_event_isolation nullRequestor (SPState.start Store.empty) (.patch none) rfl

/-- C6: an indirect single-update event parses the namespace and key from
its path payload, invokes the requestor's single-entity fetch at exactly
that namespace and key, and applies a successful fetch result through the
version-gated upsert. -/
theorem indirect_patch_fetches_and_upserts (r : StreamRequestor) (st : SPState)
    (path : String) (n : Namespace) (k : String) (e : Entity)
    (hp : parsePath path = some (n, k)) (hr : r.requestObject n k = .ok e) :
    processEvent r st (.indirectPatch path) =
      { st with store := st.store.upsert n e } := by
  simp only [processEvent, hp, hr]

/-- Scenario D's requestor: the single-entity fetch resolves to the
requested key at version 1. -/
def scenDRequestor : StreamRequestor :=
  { requestAllData := .error (.networkError "unreachable" "none"),
    requestObject := fun _ k => .ok (entV k 1) }

theorem indirect_patch_fetches_and_upserts_witness :
    processEvent scenDRequestor (SPState.start Store.empty)
        (.indirectPatch "/segments/segkey") =
      { SPState.start Store.empty with
          store :=
            (SPState.start Store.empty).store.upsert .segments (entV "segkey" 1) } ∧
      ((processEvent scenDRequestor (SPState.start Store.empty)
            (.indirectPatch "/segments/segkey")).store.get .segments
          "segkey").map Entity.version = some 1 :=
  ⟨indirect_patch_fetches_and_upserts scenDRequestor (SPState.start Store.empty)
      "/segments/segkey" .segments "segkey" (entV "segkey" 1) (by decide) rfl,
    by decide⟩
